import Mathlib

/-!
Verification of the espot-rs playback/session worker (`src/spotify/mod.rs`,
`src/spotify/cache.rs`) against its natural-language specification.

The Rust code is shallowly embedded: the worker struct `SpotifyWorker` becomes
a Lean structure, each task / control / event handler becomes a pure function
from the worker state (plus oracles for the external collaborators) to a new
state together with the observable effects (emitted state updates, issued
network calls).  A handler that can terminate the worker thread (out-of-bounds
Vec indexing, `unwrap` on an `Err`, usize underflow) returns `Option`, with
`none` standing for the aborted execution; a handler that returns a Rust
`Result` error which the caller swallows returns the unchanged state instead.

External collaborators are oracles:
  * `api`     : the batched track-lookup endpoint (`client.tracks`),
  * `httpGet` : the artwork HTTP client (`http_client.get(url)`),
  * `valid`   : which id strings parse as Spotify ids
                (`SpotifyId::from_uri` / `TrackId::from_uri`),
  * the random generator driving `nanorand`'s shuffle is a list of index
    swaps, covering every swap sequence the generator can produce.
-/

namespace Espot

/-- `TrackInfo` from `src/spotify/cache.rs`: resolved, cacheable metadata for
one playable track.  `album_images` pairs are (size, url). -/
structure TrackInfo where
  id : String
  name : String
  duration_ms : Nat
  artists : List String
  album_id : String
  album_name : String
  album_images : List (Nat × String)
deriving DecidableEq, Repr

/-- The album part of rspotify's `FullTrack` record, as consumed by
`TrackInfo::new`: optional id, name, and (optional height, url) images. -/
structure FullAlbum where
  id : Option String
  name : String
  images : List (Option Nat × String)
deriving DecidableEq, Repr

/-- The part of rspotify's `FullTrack` record consumed by `TrackInfo::new`:
optional track id, name, duration, artist names and the album record. -/
structure FullTrack where
  id : Option String
  name : String
  duration_ms : Nat
  artists : List String
  album : FullAlbum
deriving DecidableEq, Repr

/-- `TrackInfo::new` (`src/spotify/cache.rs`): fails (`None`) when the track
or its album has no id; the image heights use `unwrap_or_default()`. -/
def TrackInfo.new (track : FullTrack) : Option TrackInfo :=
  match track.id with
  | none => none
  | some tid =>
    match track.album.id with
    | none => none
    | some aid =>
      some { id := tid
             name := track.name
             duration_ms := track.duration_ms
             artists := track.artists
             album_id := aid
             album_name := track.album.name
             album_images := track.album.images.map (fun i => (i.1.getD 0, i.2)) }

/-- The in-memory track cache `api_cache : HashMap<String, TrackInfo>`,
modelled as an association list where insertion prepends (so lookup finds the
most recent insertion, matching `HashMap::insert` overwrite semantics). -/
def lookupAssoc (m : List (String × TrackInfo)) (k : String) : Option TrackInfo :=
  (m.find? (fun p => p.1 == k)).map (fun p => p.2)

/-- The worker state (`SpotifyWorker` in `src/spotify/mod.rs`).  `coverFiles`
models the on-disk artwork cache: the set of ids for which a `cover-{id}` file
exists under the cache directory. -/
structure SpotifyWorker where
  api_cache : List (String × TrackInfo)
  api_client : Option Unit
  spotify_player : Option Unit
  spotify_session : Option Unit
  player_paused : Bool
  player_current_track : Nat
  player_tracks_queue : List TrackInfo
  coverFiles : List String
deriving DecidableEq, Repr

/-- The worker state built by `SpotifyWorker::start` (with an empty persisted
cache): no client / player / session, paused, cursor 0, empty queue. -/
def initialWorker : SpotifyWorker :=
  { api_cache := []
    api_client := none
    spotify_player := none
    spotify_session := none
    player_paused := true
    player_current_track := 0
    player_tracks_queue := []
    coverFiles := [] }

/-- `WorkerResult` variants relevant to the verified tasks. -/
inductive WorkerResult where
  | Login (success : Bool)
  | PlaylistTrackInfo (tracks : List TrackInfo)
deriving DecidableEq, Repr

/-- `PlayerControl` from `src/spotify/mod.rs`. -/
inductive PlayerControl where
  | Play
  | Pause
  | Stop
  | PlayPause
  | StartPlaylist (tracks : List TrackInfo)
  | StartPlaylistAtTrack (tracks : List TrackInfo) (start : TrackInfo)
  | NextTrack
  | PreviousTrack
deriving DecidableEq, Repr

/-- `PlayerStateUpdate` from `src/spotify/mod.rs`. -/
inductive PlayerStateUpdate where
  | Paused
  | Resumed
  | Stopped
  | EndOfTrack (track : TrackInfo)
deriving DecidableEq, Repr

/-- The librespot player events handled by `process_events`; `Other` stands
for every event kind matched by the `_ => {}` arm. -/
inductive PlayerEvent where
  | Paused
  | Playing
  | Started
  | TimeToPreloadNextTrack
  | EndOfTrack
  | Other
deriving DecidableEq, Repr

/-! ### Artwork caching (`cache_cover_image`)

`cache_cover_image(id, images)` does nothing when the cover file already
exists.  Otherwise it walks the candidates until one has declared size 0 or
300, issues one HTTP GET for it, writes the file when the body is non-empty,
and stops (`break`) whether or not the fetch succeeded.  The result is the new
set of cover files together with the number of HTTP requests issued. -/

/-- `cache_cover_image` from `src/spotify/mod.rs` (identical to the copy in
`src/spotify/cache.rs`).  `httpGet url = none` models a failed request,
`some bytes` a response with body `bytes`. -/
def cache_cover_image (httpGet : String → Option (List Nat))
    (covers : List String) (id : String) (images : List (Nat × String)) :
    List String × Nat :=
  if id ∈ covers then (covers, 0)
  else
    match images.find? (fun p => p.1 == 0 || p.1 == 300) with
    | none => (covers, 0)
    | some (_, url) =>
      match httpGet url with
      | none => (covers, 1)
      | some bytes => if bytes.isEmpty then (covers, 1) else (id :: covers, 1)

/-! ### The play queue cursor -/

/-- The cursor update performed by the `NextTrack` arm of `process_events`
(and by the `EndOfTrack` / preload event arms): increment, wrapping to 0 when
the result reaches the queue length. -/
def nextTrackIndex (len c : Nat) : Nat :=
  if c + 1 ≥ len then 0 else c + 1

/-- The cursor update performed by the `PreviousTrack` arm of
`process_events`: from 0 go to `len - 1`, otherwise decrement.  (The handler
itself reaches this computation only when it does not underflow.) -/
def prevTrackIndex (len c : Nat) : Nat :=
  if c = 0 then len - 1 else c - 1

/-! ### Shuffling

`rng.shuffle(&mut tracks)` is provided by the external `nanorand` crate and
is driven by the random generator.  Modelled from the spec: the shuffle is a
random permutation, produced by a sequence of index swaps chosen by the
generator; the model takes the swap sequence as a parameter, so every theorem
below holds for every behaviour of the generator. -/

/-- Swap the elements at positions `i` and `j`; out-of-range positions leave
the list unchanged (`Vec::swap` cannot be called out of range here). -/
def swapIdx (l : List α) (i j : Nat) : List α :=
  match l[i]?, l[j]? with
  | some a, some b => (l.set i b).set j a
  | _, _ => l

/-- Modelled from the spec: `shuffle(tracks)` of §4.2, the swap-based random
permutation applied by `nanorand` (the crate source is not part of this
repository); `swaps` is the sequence of index pairs chosen by the RNG. -/
def shuffleSwaps (swaps : List (Nat × Nat)) (l : List α) : List α :=
  swaps.foldl (fun acc p => swapIdx acc p.1 p.2) l

/-! ### Playlist start tasks -/

/-- `start_playlist_task` (`src/spotify/mod.rs` line 597): with no player the
`NoSpotifyPlayer` error is returned and the caller ignores it (state
unchanged); `tracks[0]` aborts on an empty list (`none`); an unparsable id is
a returned `BadSpotifyId` error (state unchanged); otherwise the queue is
replaced, the cursor reset to 0 and one `EndOfTrack` update is emitted. -/
def start_playlist_task (valid : String → Bool) (s : SpotifyWorker)
    (tracks : List TrackInfo) : Option (SpotifyWorker × List PlayerStateUpdate) :=
  match s.spotify_player with
  | none => some (s, [])
  | some _ =>
    match tracks[0]? with
    | none => none
    | some track =>
      if valid track.id then
        some ({ s with player_current_track := 0, player_tracks_queue := tracks },
              [PlayerStateUpdate.EndOfTrack track])
      else some (s, [])

/-- `start_playlist_at_idx_task` (`src/spotify/mod.rs` line 611): same shape
as `start_playlist_task` but starting at `idx`. -/
def start_playlist_at_idx_task (valid : String → Bool) (s : SpotifyWorker)
    (tracks : List TrackInfo) (idx : Nat) :
    Option (SpotifyWorker × List PlayerStateUpdate) :=
  match s.spotify_player with
  | none => some (s, [])
  | some _ =>
    match tracks[idx]? with
    | none => none
    | some track =>
      if valid track.id then
        some ({ s with player_current_track := idx, player_tracks_queue := tracks },
              [PlayerStateUpdate.EndOfTrack track])
      else some (s, [])

/-- The `StartPlaylistAtTrack` arm of `process_events`, after the shuffle has
been applied: locate the first element whose id equals the anchor's id
(falling back to 0), then run `start_playlist_at_idx_task`. -/
def startPlaylistAtTrack (valid : String → Bool) (s : SpotifyWorker)
    (shuffled : List TrackInfo) (start : TrackInfo) :
    Option (SpotifyWorker × List PlayerStateUpdate) :=
  let idx := (shuffled.findIdx? (fun track => track.id == start.id)).getD 0
  start_playlist_at_idx_task valid s shuffled idx

/-- The `NextTrack` arm of `process_events`: with no player, a silent no-op;
otherwise advance the cursor with wrap-around, index the queue (aborting on an
empty queue), unwrap the id parse (aborting on an invalid id), emit
`EndOfTrack` and load the track. -/
def nextTrackControl (valid : String → Bool) (s : SpotifyWorker) :
    Option (SpotifyWorker × List PlayerStateUpdate) :=
  match s.spotify_player with
  | none => some (s, [])
  | some _ =>
    let c := nextTrackIndex s.player_tracks_queue.length s.player_current_track
    match s.player_tracks_queue[c]? with
    | none => none
    | some track =>
      if valid track.id then
        some ({ s with player_current_track := c }, [PlayerStateUpdate.EndOfTrack track])
      else none

/-- The `PreviousTrack` arm of `process_events`: with no player, a silent
no-op; on cursor 0 the code computes `len() - 1` on a usize, which aborts
(underflow) when the queue is empty; otherwise retreat the cursor, index the
queue, unwrap the id parse, emit `EndOfTrack` and load the track. -/
def prevTrackControl (valid : String → Bool) (s : SpotifyWorker) :
    Option (SpotifyWorker × List PlayerStateUpdate) :=
  match s.spotify_player with
  | none => some (s, [])
  | some _ =>
    if s.player_current_track = 0 ∧ s.player_tracks_queue.length = 0 then none
    else
      let c := prevTrackIndex s.player_tracks_queue.length s.player_current_track
      match s.player_tracks_queue[c]? with
      | none => none
      | some track =>
        if valid track.id then
          some ({ s with player_current_track := c }, [PlayerStateUpdate.EndOfTrack track])
        else none

/-- The `PlayerControl` match block of `process_events`.  `swaps` drives the
shuffles; the transport controls are silent no-ops without a player and emit
their update otherwise. -/
def process_control (valid : String → Bool) (swaps : List (Nat × Nat))
    (s : SpotifyWorker) : PlayerControl → Option (SpotifyWorker × List PlayerStateUpdate)
  | PlayerControl.Play =>
    match s.spotify_player with
    | none => some (s, [])
    | some _ => some (s, [PlayerStateUpdate.Resumed])
  | PlayerControl.Pause =>
    match s.spotify_player with
    | none => some (s, [])
    | some _ => some (s, [PlayerStateUpdate.Paused])
  | PlayerControl.Stop =>
    match s.spotify_player with
    | none => some (s, [])
    | some _ => some (s, [PlayerStateUpdate.Stopped])
  | PlayerControl.PlayPause =>
    match s.spotify_player with
    | none => some (s, [])
    | some _ =>
      if s.player_paused then some (s, [PlayerStateUpdate.Resumed])
      else some (s, [PlayerStateUpdate.Paused])
  | PlayerControl.StartPlaylist tracks =>
    start_playlist_task valid s (shuffleSwaps swaps tracks)
  | PlayerControl.StartPlaylistAtTrack tracks start =>
    startPlaylistAtTrack valid s (shuffleSwaps swaps tracks) start
  | PlayerControl.NextTrack => nextTrackControl valid s
  | PlayerControl.PreviousTrack => prevTrackControl valid s

/-- The `PlayerEvent` match block of `process_events`.  The `EndOfTrack` arm
advances the cursor even without a player; with a player it indexes the queue
(aborting on an empty queue) and unwraps the id parse. -/
def process_player_event (valid : String → Bool) (s : SpotifyWorker) :
    PlayerEvent → Option (SpotifyWorker × List PlayerStateUpdate)
  | PlayerEvent.Paused => some ({ s with player_paused := true }, [])
  | PlayerEvent.Playing => some ({ s with player_paused := false }, [])
  | PlayerEvent.Started => some ({ s with player_paused := false }, [])
  | PlayerEvent.TimeToPreloadNextTrack =>
    if s.player_tracks_queue.isEmpty then some (s, [])
    else
      let target :=
        if s.player_current_track + 1 ≥ s.player_tracks_queue.length then 0
        else s.player_current_track + 1
      match s.player_tracks_queue[target]? with
      | none => none
      | some track => if valid track.id then some (s, []) else none
  | PlayerEvent.EndOfTrack =>
    let c := nextTrackIndex s.player_tracks_queue.length s.player_current_track
    match s.spotify_player with
    | none => some ({ s with player_current_track := c }, [])
    | some _ =>
      match s.player_tracks_queue[c]? with
      | none => none
      | some track =>
        if valid track.id then
          some ({ s with player_current_track := c }, [PlayerStateUpdate.EndOfTrack track])
        else none
  | PlayerEvent.Other => some (s, [])

/-! ### Login (`login_task` and the `WorkerTask::Login` arm) -/

/-- The environment consulted by `login_task`: whether
`rspotify::Credentials::from_env` and `rspotify::OAuth::from_env` yield a
value, whether `prompt_for_token` succeeds, and whether `Session::connect`
succeeds. -/
structure LoginEnv where
  creds : Bool
  oauth : Bool
  tokenOk : Bool
  sessionOk : Bool
deriving DecidableEq, Repr

/-- `login_task` (`src/spotify/mod.rs` line 356): each failure path returns an
error before any field of the worker is assigned; only after a successful
`Session::connect` are `api_client`, `spotify_player` and `spotify_session`
set.  `some ()` in the second component models the returned event receiver. -/
def login_task (env : LoginEnv) (s : SpotifyWorker) : SpotifyWorker × Option Unit :=
  if env.creds = false then (s, none)
  else if env.oauth = false then (s, none)
  else if env.tokenOk then
    if env.sessionOk then
      ({ s with api_client := some ()
                spotify_player := some ()
                spotify_session := some () }, some ())
    else (s, none)
  else (s, none)

/-- The `WorkerTask::Login` arm of `process_events`: run `login_task` and send
`WorkerResult::Login(result)` on the result channel. -/
def process_login (env : LoginEnv) (s : SpotifyWorker) : SpotifyWorker × WorkerResult :=
  match login_task env s with
  | (s2, some _) => (s2, WorkerResult.Login true)
  | (s2, none) => (s2, WorkerResult.Login false)

/-! ### Batched track lookup (`get_tracks_info`) and playlist resolution -/

/-- Recursion core of `chunks50`: structural recursion on a fuel that bounds
the list length (every step drops at least one element). -/
def chunks50Go : Nat → List α → List (List α)
  | _, [] => []
  | 0, _ :: _ => []
  | fuel + 1, x :: xs => ((x :: xs).take 50) :: chunks50Go fuel ((x :: xs).drop 50)

/-- `slice::chunks(50)`: consecutive chunks of at most 50 elements, the final
chunk possibly shorter; the empty slice yields no chunks. -/
def chunks50 (l : List α) : List (List α) :=
  chunks50Go l.length l

/-- One response of the batched tracks endpoint, processed by the inner loop
of `get_tracks_info`: each record convertible by `TrackInfo::new` has its
album cover cached, is appended to the result and inserted into `api_cache`.
Returns the new state, the converted tracks in response order, and the number
of artwork HTTP requests. -/
def processResponse (httpGet : String → Option (List Nat)) (s : SpotifyWorker) :
    List FullTrack → SpotifyWorker × List TrackInfo × Nat
  | [] => (s, [], 0)
  | ft :: rest =>
    match TrackInfo.new ft with
    | none => processResponse httpGet s rest
    | some track =>
      let art := cache_cover_image httpGet s.coverFiles track.album_id track.album_images
      let s2 := { s with coverFiles := art.1, api_cache := (track.id, track) :: s.api_cache }
      let r := processResponse httpGet s2 rest
      (r.1, track :: r.2.1, art.2 + r.2.2)

/-- The batch loop of `get_tracks_info`: one call to the tracks endpoint per
chunk (`api batch = none` models a request error, which propagates with `?`).
Returns the state, the resolved tracks, the batches issued and the artwork
request count. -/
def processBatches (api : List String → Option (List FullTrack))
    (httpGet : String → Option (List Nat)) (s : SpotifyWorker) :
    List (List String) →
    Except Unit (SpotifyWorker × List TrackInfo × List (List String) × Nat)
  | [] => Except.ok (s, [], [], 0)
  | b :: rest =>
    match api b with
    | none => Except.error ()
    | some resp =>
      let r := processResponse httpGet s resp
      match processBatches api httpGet r.1 rest with
      | Except.error e => Except.error e
      | Except.ok (s3, ts, bs, m) =>
        Except.ok (s3, r.2.1 ++ ts, b :: bs, r.2.2 + m)

/-- `get_tracks_info` (`src/spotify/mod.rs` line 562): requires the API
client, then processes the ids in chunks of 50.  (The `tracks.ron` disk write
on a dirty cache is a local file write, not a network call, and is not
modelled.) -/
def get_tracks_info (api : List String → Option (List FullTrack))
    (httpGet : String → Option (List Nat)) (s : SpotifyWorker) (ids : List String) :
    Except Unit (SpotifyWorker × List TrackInfo × List (List String) × Nat) :=
  match s.api_client with
  | none => Except.error ()
  | some _ => processBatches api httpGet s (chunks50 ids)

/-- The cache-hit filter of `fetch_playlist_tracks_info_task`: walk the valid
ids in playlist order; a cached id has its album cover re-cached and its
`TrackInfo` pushed onto the hit list, an uncached id is kept for fetching.
Returns (cover files, hits, ids to fetch, artwork request count). -/
def resolveCachedTracks (httpGet : String → Option (List Nat))
    (cache : List (String × TrackInfo)) (covers : List String) :
    List String → List String × List TrackInfo × List String × Nat
  | [] => (covers, [], [], 0)
  | id :: rest =>
    match lookupAssoc cache id with
    | some track =>
      let art := cache_cover_image httpGet covers track.album_id track.album_images
      let r := resolveCachedTracks httpGet cache art.1 rest
      (r.1, track :: r.2.1, r.2.2.1, art.2 + r.2.2.2)
    | none =>
      let r := resolveCachedTracks httpGet cache covers rest
      (r.1, r.2.1, id :: r.2.2.1, r.2.2.2)

/-- `fetch_playlist_tracks_info_task` (`src/spotify/mod.rs` line 474):
filter the playlist down to parsable ids (`valid`), collect cache hits while
recording the misses, fetch the misses with `get_tracks_info`, append the
fetched tracks after the hits, and send `PlaylistTrackInfo`.  Returns the new
state, the sent result, the batches issued and the artwork request count. -/
def fetch_playlist_tracks_info_task (api : List String → Option (List FullTrack))
    (httpGet : String → Option (List Nat)) (valid : String → Bool)
    (s : SpotifyWorker) (playlistTracks : List String) :
    Except Unit (SpotifyWorker × WorkerResult × List (List String) × Nat) :=
  let validIds := playlistTracks.filter valid
  let hits := resolveCachedTracks httpGet s.api_cache s.coverFiles validIds
  let s1 := { s with coverFiles := hits.1 }
  match get_tracks_info api httpGet s1 hits.2.2.1 with
  | Except.error e => Except.error e
  | Except.ok (s2, fetched, batches, m) =>
    Except.ok (s2, WorkerResult.PlaylistTrackInfo (hits.2.1 ++ fetched),
               batches, hits.2.2.2 + m)

/-- `CacheHandler::get_track_info` (`src/spotify/cache.rs` line 32): on a hit
the album cover is (re-)cached — which performs an HTTP request when the
cover file is absent and a size-0/300 candidate exists — and the cached value
is cloned; on a miss nothing happens.  Returns (lookup result, cover files,
HTTP request count); the track table itself is never modified (`&self`). -/
def get_track_info (httpGet : String → Option (List Nat))
    (cached : List (String × TrackInfo)) (covers : List String) (id : String) :
    Option TrackInfo × List String × Nat :=
  match lookupAssoc cached id with
  | some track =>
    let art := cache_cover_image httpGet covers track.album_id track.album_images
    (some track, art.1, art.2)
  | none => (none, covers, 0)

/-- A track whose artwork state cannot trigger a fetch in
`cache_cover_image`: either no size-0/300 candidate exists, or the album's
cover file is already on disk. -/
def artSettled (covers : List String) (t : TrackInfo) : Prop :=
  t.album_images.find? (fun p => p.1 == 0 || p.1 == 300) = none ∨ t.album_id ∈ covers

instance (covers : List String) (t : TrackInfo) : Decidable (artSettled covers t) := by
  unfold artSettled; infer_instance

/-! ### The queue invariant and concrete sample data -/

/-- The PlayQueue invariant of the spec (§3): whenever the queue is
non-empty, the cursor is a valid index into it. -/
def WorkerInv (s : SpotifyWorker) : Prop :=
  s.player_tracks_queue ≠ [] → s.player_current_track < s.player_tracks_queue.length

instance (s : SpotifyWorker) : Decidable (WorkerInv s) := by
  unfold WorkerInv; infer_instance

/-- A sample resolved track (no artwork candidates). -/
def trackA : TrackInfo :=
  { id := "spotify:track:a", name := "A", duration_ms := 1000, artists := ["artist"],
    album_id := "spotify:album:a", album_name := "Album A", album_images := [] }

/-- A second sample resolved track (no artwork candidates). -/
def trackB : TrackInfo :=
  { id := "spotify:track:b", name := "B", duration_ms := 2000, artists := ["artist"],
    album_id := "spotify:album:b", album_name := "Album B", album_images := [] }

/-- A sample resolved track with a 300px artwork candidate. -/
def trackC : TrackInfo :=
  { id := "spotify:track:c", name := "C", duration_ms := 3000, artists := ["artist"],
    album_id := "spotify:album:c", album_name := "Album C",
    album_images := [(300, "urlC")] }

/-- The network record that `TrackInfo.new` converts to `trackA`. -/
def ftA : FullTrack :=
  { id := some "spotify:track:a", name := "A", duration_ms := 1000, artists := ["artist"],
    album := { id := some "spotify:album:a", name := "Album A", images := [] } }

/-- A network record with no album id: `TrackInfo.new` rejects it, so it is
never cached. -/
def ftNoAlbum : FullTrack :=
  { id := some "spotify:track:a", name := "A", duration_ms := 1000, artists := ["artist"],
    album := { id := none, name := "Album A", images := [] } }

/-- A worker that has completed login (player present), with empty queue. -/
def playerReady : SpotifyWorker :=
  { initialWorker with spotify_player := some () }

/-- A worker with an API client, `trackB` cached and no cover files. -/
def c1State : SpotifyWorker :=
  { initialWorker with api_client := some (),
                       api_cache := [("spotify:track:b", trackB)] }

/-- A worker with an API client and an empty cache. -/
def clientReady : SpotifyWorker :=
  { initialWorker with api_client := some () }

/-! ## Chunking lemmas -/

theorem chunks50Go_nil (fuel : Nat) : chunks50Go fuel ([] : List α) = [] := by
  cases fuel <;> rfl

theorem chunks50Go_congr :
    ∀ (f1 f2 : Nat) (l : List α), l.length ≤ f1 → l.length ≤ f2 →
      chunks50Go f1 l = chunks50Go f2 l := by
  intro f1
  induction f1 with
  | zero =>
    intro f2 l h1 _
    have hl : l = [] := by cases l with
      | nil => rfl
      | cons x xs => simp at h1
    subst hl
    rw [chunks50Go_nil, chunks50Go_nil]
  | succ n ih =>
    intro f2 l h1 h2
    cases l with
    | nil => rw [chunks50Go_nil, chunks50Go_nil]
    | cons x xs =>
      cases f2 with
      | zero => simp at h2
      | succ m =>
        show _ :: chunks50Go n ((x :: xs).drop 50) = _ :: chunks50Go m ((x :: xs).drop 50)
        have hd : ((x :: xs).drop 50).length = (x :: xs).length - 50 := by
          simp [List.length_drop]
        have hxs : xs.length + 1 ≤ n + 1 := by simpa using h1
        have hxs2 : xs.length + 1 ≤ m + 1 := by simpa using h2
        rw [ih m ((x :: xs).drop 50) (by simp [hd]; omega) (by simp [hd]; omega)]

theorem chunks50_eq_cons (l : List α) (h : l ≠ []) :
    chunks50 l = l.take 50 :: chunks50 (l.drop 50) := by
  cases l with
  | nil => exact absurd rfl h
  | cons x xs =>
    show chunks50Go (xs.length + 1) (x :: xs) = _
    show _ :: chunks50Go xs.length ((x :: xs).drop 50)
       = _ :: chunks50Go ((x :: xs).drop 50).length ((x :: xs).drop 50)
    rw [chunks50Go_congr xs.length ((x :: xs).drop 50).length ((x :: xs).drop 50)
        (by simp [List.length_drop]) (Nat.le_refl _)]

theorem chunks50_flatten_aux :
    ∀ (n : Nat) (l : List α), l.length ≤ n → (chunks50 l).flatten = l := by
  intro n
  induction n with
  | zero =>
    intro l h
    have hl : l = [] := by cases l with
      | nil => rfl
      | cons x xs => simp at h
    subst hl; rfl
  | succ n ih =>
    intro l h
    cases l with
    | nil => rfl
    | cons x xs =>
      have hxs : xs.length ≤ n := by simpa using h
      rw [chunks50_eq_cons (x :: xs) (by simp), List.flatten_cons,
          ih ((x :: xs).drop 50) (by simp [List.length_drop]; omega),
          List.take_append_drop]

theorem chunks50_flatten (l : List α) : (chunks50 l).flatten = l :=
  chunks50_flatten_aux l.length l (Nat.le_refl _)

theorem chunks50_length_le_aux :
    ∀ (n : Nat) (l : List α), l.length ≤ n → ∀ c ∈ chunks50 l, c.length ≤ 50 := by
  intro n
  induction n with
  | zero =>
    intro l h c hc
    have hl : l = [] := by cases l with
      | nil => rfl
      | cons x xs => simp at h
    subst hl; simp [chunks50, chunks50Go] at hc
  | succ n ih =>
    intro l h c hc
    cases l with
    | nil => simp [chunks50, chunks50Go] at hc
    | cons x xs =>
      have hxs : xs.length ≤ n := by simpa using h
      rw [chunks50_eq_cons (x :: xs) (by simp)] at hc
      rcases List.mem_cons.mp hc with h1 | h2
      · subst h1
        rw [List.length_take]
        exact Nat.min_le_left _ _
      · exact ih ((x :: xs).drop 50) (by simp [List.length_drop]; omega) c h2

theorem chunks50_length_le (l : List α) : ∀ c ∈ chunks50 l, c.length ≤ 50 :=
  chunks50_length_le_aux l.length l (Nat.le_refl _)

theorem chunks50_map_length_120 (l : List α) (h : l.length = 120) :
    (chunks50 l).map List.length = [50, 50, 20] := by
  have h1 : l ≠ [] := by intro he; rw [he] at h; simp at h
  have hd1 : (l.drop 50).length = 70 := by simp [List.length_drop, h]
  have h2 : l.drop 50 ≠ [] := by
    intro he; rw [he] at hd1; simp at hd1
  have hd2 : ((l.drop 50).drop 50).length = 20 := by rw [List.length_drop, hd1]
  have h3 : (l.drop 50).drop 50 ≠ [] := by
    intro he; rw [he] at hd2; simp at hd2
  have hd3 : (((l.drop 50).drop 50).drop 50).length = 0 := by
    rw [List.length_drop, hd2]
  have h4 : ((l.drop 50).drop 50).drop 50 = [] := List.eq_nil_of_length_eq_zero hd3
  rw [chunks50_eq_cons l h1, chunks50_eq_cons (l.drop 50) h2,
      chunks50_eq_cons ((l.drop 50).drop 50) h3, h4]
  simp [List.length_take, h, hd1, hd2, chunks50, chunks50Go]

/-! ## Batch processing -/

theorem processBatches_ok (api : List String → Option (List FullTrack))
    (httpGet : String → Option (List Nat)) (hapi : ∀ b, api b ≠ none) :
    ∀ (bs : List (List String)) (s : SpotifyWorker),
      ∃ s2 ts n, processBatches api httpGet s bs = Except.ok (s2, ts, bs, n) := by
  intro bs
  induction bs with
  | nil => intro s; exact ⟨s, [], 0, rfl⟩
  | cons b rest ih =>
    intro s
    cases hb : api b with
    | none => exact absurd hb (hapi b)
    | some resp =>
      obtain ⟨s2, ts, n, h2⟩ := ih (processResponse httpGet s resp).1
      refine ⟨s2, (processResponse httpGet s resp).2.1 ++ ts,
              (processResponse httpGet s resp).2.2 + n, ?_⟩
      simp [processBatches, hb, h2]

/-- C6: `get_tracks_info` issues its network lookups as the consecutive
≤50-sized chunks of the requested id list; these chunks concatenate back to
the input, and an input of 120 ids yields exactly the batches of sizes
50, 50, 20 in that order. -/
theorem get_tracks_info_batches (api : List String → Option (List FullTrack))
    (httpGet : String → Option (List Nat)) (s : SpotifyWorker) (ids : List String)
    (hc : s.api_client = some ()) (hapi : ∀ b, api b ≠ none) :
    ∃ s2 ts n, get_tracks_info api httpGet s ids = Except.ok (s2, ts, chunks50 ids, n) ∧
      (chunks50 ids).flatten = ids ∧
      (∀ b ∈ chunks50 ids, b.length ≤ 50) ∧
      (ids.length = 120 → (chunks50 ids).map List.length = [50, 50, 20]) := by
  obtain ⟨s2, ts, n, h⟩ := processBatches_ok api httpGet hapi (chunks50 ids) s
  exact ⟨s2, ts, n, by simp [get_tracks_info, hc, h], chunks50_flatten ids,
         chunks50_length_le ids, fun h120 => chunks50_map_length_120 ids h120⟩

theorem get_tracks_info_batches_witness :
    ∃ s2 ts n,
      get_tracks_info (fun _ => some []) (fun _ => none) clientReady
          (List.replicate 120 "x")
        = Except.ok (s2, ts, chunks50 (List.replicate 120 "x"), n) ∧
      (chunks50 (List.replicate 120 "x")).flatten = List.replicate 120 "x" ∧
      (∀ b ∈ chunks50 (List.replicate 120 "x"), b.length ≤ 50) ∧
      ((List.replicate 120 "x").length = 120 →
        (chunks50 (List.replicate 120 "x")).map List.length = [50, 50, 20]) :=
  get_tracks_info_batches (fun _ => some []) (fun _ => none) clientReady
    (List.replicate 120 "x") rfl (fun _ h => Option.noConfusion h)

/-! ## Cursor arithmetic -/

/-- C2: for a queue of length `N ≥ 1` and cursor `c < N`, the `NextTrack` and
`PreviousTrack` cursor updates are inverse to each other, and both are
wrap-around arithmetic mod `N` (incrementing past the last index yields 0,
decrementing from 0 yields `N - 1`), including for `N = 1`. -/
theorem next_prev_roundtrip (N c : Nat) (hN : 1 ≤ N) (hc : c < N) :
    prevTrackIndex N (nextTrackIndex N c) = c ∧
    nextTrackIndex N (prevTrackIndex N c) = c ∧
    nextTrackIndex N c = (c + 1) % N ∧
    prevTrackIndex N c = (c + (N - 1)) % N := by
  refine ⟨?_, ?_, ?_, ?_⟩
  · unfold nextTrackIndex prevTrackIndex
    split <;> split <;> omega
  · unfold nextTrackIndex prevTrackIndex
    split <;> split <;> omega
  · unfold nextTrackIndex
    split
    · have hcN : c + 1 = N := by omega
      rw [hcN, Nat.mod_self]
    · rw [Nat.mod_eq_of_lt (by omega)]
  · unfold prevTrackIndex
    split
    · rename_i h0
      rw [h0, Nat.zero_add, Nat.mod_eq_of_lt (by omega)]
    · rw [show c + (N - 1) = N + (c - 1) from by omega, Nat.add_mod_left,
          Nat.mod_eq_of_lt (by omega)]

theorem next_prev_roundtrip_witness :
    1 ≤ 3 ∧ 2 < 3 ∧
    (prevTrackIndex 3 (nextTrackIndex 3 2) = 2 ∧
     nextTrackIndex 3 (prevTrackIndex 3 2) = 2 ∧
     nextTrackIndex 3 2 = (2 + 1) % 3 ∧
     prevTrackIndex 3 2 = (2 + (3 - 1)) % 3) :=
  ⟨by decide, by decide, next_prev_roundtrip 3 2 (by decide) (by decide)⟩

/-! ## Empty-queue navigation aborts -/

/-- C10: with a player established but an empty queue, the `NextTrack` and
`PreviousTrack` handlers do not return normally: `NextTrack` wraps the cursor
to 0 and indexes the empty queue out of bounds, and `PreviousTrack` either
underflows `len() - 1` (cursor 0) or indexes out of bounds (cursor > 0). -/
theorem next_prev_empty_queue (valid : String → Bool) (swaps : List (Nat × Nat))
    (s : SpotifyWorker) (hp : s.spotify_player = some ())
    (hq : s.player_tracks_queue = []) :
    process_control valid swaps s PlayerControl.NextTrack = none ∧
    process_control valid swaps s PlayerControl.PreviousTrack = none := by
  constructor
  · simp [process_control, nextTrackControl, hp, hq, nextTrackIndex]
  · simp only [process_control, prevTrackControl, hp, hq]
    split
    · rfl
    · simp [prevTrackIndex]

theorem next_prev_empty_queue_witness :
    playerReady.spotify_player = some () ∧
    playerReady.player_tracks_queue = [] ∧
    (process_control (fun _ => true) [] playerReady PlayerControl.NextTrack = none ∧
     process_control (fun _ => true) [] playerReady PlayerControl.PreviousTrack = none) :=
  ⟨rfl, rfl, next_prev_empty_queue (fun _ => true) [] playerReady rfl rfl⟩

/-! ## The shuffle is a permutation -/

theorem count_set_balance [DecidableEq α] (l : List α) (n : Nat) (a x : α)
    (h : n < l.length) :
    (l.set n a).count x + (if l[n] = x then 1 else 0)
      = l.count x + (if a = x then 1 else 0) := by
  have hl : l = l.take n ++ l[n] :: l.drop (n + 1) := by
    conv_lhs => rw [← List.take_append_drop n l]
    rw [List.getElem_cons_drop]
  rw [List.set_eq_take_cons_drop a h]
  conv_rhs => rw [hl]
  simp only [List.count_append, List.count_cons, beq_iff_eq]
  by_cases h1 : l[n] = x <;> by_cases h2 : a = x <;> simp [h1, h2] <;> omega

theorem swapIdx_set_perm (l : List α) (i j : Nat) (a b : α)
    (hi : l[i]? = some a) (hj : l[j]? = some b) :
    List.Perm ((l.set i b).set j a) l := by
  classical
  obtain ⟨hi2, hia⟩ := List.getElem?_eq_some_iff.mp hi
  obtain ⟨hj2, hjb⟩ := List.getElem?_eq_some_iff.mp hj
  rw [List.perm_iff_count]
  intro x
  by_cases hij : i = j
  · subst hij
    have hab : a = b := by rw [← hia, ← hjb]
    subst hab
    rw [List.set_set]
    have h1 := count_set_balance l i a x hi2
    rw [hia] at h1
    omega
  · have hlen : j < (l.set i b).length := by
      rw [List.length_set]; exact hj2
    have h1 := count_set_balance (l.set i b) j a x hlen
    have h2 := count_set_balance l i b x hi2
    have hsb : (l.set i b)[j] = l[j] := List.getElem_set_ne hij _
    rw [hsb, hjb] at h1
    rw [hia] at h2
    by_cases hax : a = x <;> by_cases hbx : b = x <;> simp [hax, hbx] at h1 h2 ⊢ <;>
      omega

theorem swapIdx_perm (l : List α) (i j : Nat) : List.Perm (swapIdx l i j) l := by
  unfold swapIdx
  cases hi : l[i]? with
  | none => exact List.Perm.refl l
  | some a =>
    cases hj : l[j]? with
    | none => exact List.Perm.refl l
    | some b => exact swapIdx_set_perm l i j a b hi hj

theorem shuffleSwaps_perm (swaps : List (Nat × Nat)) (l : List α) :
    List.Perm (shuffleSwaps swaps l) l := by
  induction swaps generalizing l with
  | nil => exact List.Perm.refl l
  | cons p rest ih =>
    exact List.Perm.trans (ih (swapIdx l p.1 p.2)) (swapIdx_perm l p.1 p.2)

/-- C4: for every non-empty track list and every behaviour of the random
generator, the shuffle applied by the `StartPlaylist` / `StartPlaylistAtTrack`
arms is a permutation of its input: same length and same multiset of
elements. -/
theorem shuffle_permutation (swaps : List (Nat × Nat)) (l : List TrackInfo)
    (_hne : l ≠ []) :
    List.Perm (shuffleSwaps swaps l) l ∧
    (shuffleSwaps swaps l).length = l.length ∧
    ((shuffleSwaps swaps l : List TrackInfo) : Multiset TrackInfo) = (l : Multiset TrackInfo) := by
  refine ⟨shuffleSwaps_perm swaps l, (shuffleSwaps_perm swaps l).length_eq, ?_⟩
  exact Multiset.coe_eq_coe.mpr (shuffleSwaps_perm swaps l)

/-! ## The cursor invariant -/

theorem inv_start_at_idx (valid : String → Bool) (s : SpotifyWorker)
    (tracks : List TrackInfo) (idx : Nat) (s2 : SpotifyWorker)
    (upd : List PlayerStateUpdate) (hInv : WorkerInv s)
    (h : start_playlist_at_idx_task valid s tracks idx = some (s2, upd)) :
    WorkerInv s2 := by
  unfold start_playlist_at_idx_task at h
  split at h
  · simp only [Option.some.injEq, Prod.mk.injEq] at h
    obtain ⟨h1, _⟩ := h; subst h1; exact hInv
  · split at h
    · exact absurd h (by simp)
    · rename_i track ht
      split at h
      · simp only [Option.some.injEq, Prod.mk.injEq] at h
        obtain ⟨h1, _⟩ := h; subst h1
        intro _
        exact (List.getElem?_eq_some_iff.mp ht).1
      · simp only [Option.some.injEq, Prod.mk.injEq] at h
        obtain ⟨h1, _⟩ := h; subst h1; exact hInv

theorem inv_start (valid : String → Bool) (s : SpotifyWorker)
    (tracks : List TrackInfo) (s2 : SpotifyWorker)
    (upd : List PlayerStateUpdate) (hInv : WorkerInv s)
    (h : start_playlist_task valid s tracks = some (s2, upd)) :
    WorkerInv s2 := by
  unfold start_playlist_task at h
  split at h
  · simp only [Option.some.injEq, Prod.mk.injEq] at h
    obtain ⟨h1, _⟩ := h; subst h1; exact hInv
  · split at h
    · exact absurd h (by simp)
    · rename_i track ht
      split at h
      · simp only [Option.some.injEq, Prod.mk.injEq] at h
        obtain ⟨h1, _⟩ := h; subst h1
        intro _
        exact (List.getElem?_eq_some_iff.mp ht).1
      · simp only [Option.some.injEq, Prod.mk.injEq] at h
        obtain ⟨h1, _⟩ := h; subst h1; exact hInv

theorem inv_next (valid : String → Bool) (s : SpotifyWorker) (s2 : SpotifyWorker)
    (upd : List PlayerStateUpdate) (hInv : WorkerInv s)
    (h : nextTrackControl valid s = some (s2, upd)) : WorkerInv s2 := by
  unfold nextTrackControl at h
  split at h
  · simp only [Option.some.injEq, Prod.mk.injEq] at h
    obtain ⟨h1, _⟩ := h; subst h1; exact hInv
  · simp only [] at h
    split at h
    · exact absurd h (by simp)
    · rename_i track ht
      split at h
      · simp only [Option.some.injEq, Prod.mk.injEq] at h
        obtain ⟨h1, _⟩ := h; subst h1
        intro _
        exact (List.getElem?_eq_some_iff.mp ht).1
      · exact absurd h (by simp)

theorem inv_prev (valid : String → Bool) (s : SpotifyWorker) (s2 : SpotifyWorker)
    (upd : List PlayerStateUpdate) (hInv : WorkerInv s)
    (h : prevTrackControl valid s = some (s2, upd)) : WorkerInv s2 := by
  unfold prevTrackControl at h
  split at h
  · simp only [Option.some.injEq, Prod.mk.injEq] at h
    obtain ⟨h1, _⟩ := h; subst h1; exact hInv
  · split at h
    · exact absurd h (by simp)
    · simp only [] at h
      split at h
      · exact absurd h (by simp)
      · rename_i track ht
        split at h
        · simp only [Option.some.injEq, Prod.mk.injEq] at h
          obtain ⟨h1, _⟩ := h; subst h1
          intro _
          exact (List.getElem?_eq_some_iff.mp ht).1
        · exact absurd h (by simp)

/-- C8: the queue/cursor invariant — a non-empty queue always has a valid
cursor — holds in the initial worker state and is preserved by every
normally-returning control handler (`StartPlaylist`, `StartPlaylistAtTrack`,
`NextTrack`, `PreviousTrack`, and the trivial transport controls) and by
every normally-returning player-event handler (including `EndOfTrack` and
the preload handler). -/
theorem worker_invariant :
    WorkerInv initialWorker ∧
    (∀ (valid : String → Bool) (swaps : List (Nat × Nat)) (s : SpotifyWorker)
       (c : PlayerControl) (s2 : SpotifyWorker) (upd : List PlayerStateUpdate),
       WorkerInv s → process_control valid swaps s c = some (s2, upd) → WorkerInv s2) ∧
    (∀ (valid : String → Bool) (s : SpotifyWorker) (ev : PlayerEvent)
       (s2 : SpotifyWorker) (upd : List PlayerStateUpdate),
       WorkerInv s → process_player_event valid s ev = some (s2, upd) → WorkerInv s2) := by
  refine ⟨fun h => absurd rfl h, ?_, ?_⟩
  · intro valid swaps s c s2 upd hInv h
    cases c with
    | Play =>
      simp only [process_control] at h
      split at h <;>
        (simp only [Option.some.injEq, Prod.mk.injEq] at h;
         obtain ⟨h1, _⟩ := h; subst h1; exact hInv)
    | Pause =>
      simp only [process_control] at h
      split at h <;>
        (simp only [Option.some.injEq, Prod.mk.injEq] at h;
         obtain ⟨h1, _⟩ := h; subst h1; exact hInv)
    | Stop =>
      simp only [process_control] at h
      split at h <;>
        (simp only [Option.some.injEq, Prod.mk.injEq] at h;
         obtain ⟨h1, _⟩ := h; subst h1; exact hInv)
    | PlayPause =>
      simp only [process_control] at h
      split at h
      · simp only [Option.some.injEq, Prod.mk.injEq] at h
        obtain ⟨h1, _⟩ := h; subst h1; exact hInv
      · split at h <;>
          (simp only [Option.some.injEq, Prod.mk.injEq] at h;
           obtain ⟨h1, _⟩ := h; subst h1; exact hInv)
    | StartPlaylist tracks =>
      exact inv_start valid s (shuffleSwaps swaps tracks) s2 upd hInv h
    | StartPlaylistAtTrack tracks start =>
      exact inv_start_at_idx valid s (shuffleSwaps swaps tracks) _ s2 upd hInv h
    | NextTrack => exact inv_next valid s s2 upd hInv h
    | PreviousTrack => exact inv_prev valid s s2 upd hInv h
  · intro valid s ev s2 upd hInv h
    cases ev with
    | Paused =>
      simp only [process_player_event, Option.some.injEq, Prod.mk.injEq] at h
      obtain ⟨h1, _⟩ := h; subst h1; exact hInv
    | Playing =>
      simp only [process_player_event, Option.some.injEq, Prod.mk.injEq] at h
      obtain ⟨h1, _⟩ := h; subst h1; exact hInv
    | Started =>
      simp only [process_player_event, Option.some.injEq, Prod.mk.injEq] at h
      obtain ⟨h1, _⟩ := h; subst h1; exact hInv
    | TimeToPreloadNextTrack =>
      simp only [process_player_event] at h
      split at h
      · simp only [Option.some.injEq, Prod.mk.injEq] at h
        obtain ⟨h1, _⟩ := h; subst h1; exact hInv
      · split at h
        · exact absurd h (by simp)
        · split at h
          · simp only [Option.some.injEq, Prod.mk.injEq] at h
            obtain ⟨h1, _⟩ := h; subst h1; exact hInv
          · exact absurd h (by simp)
    | EndOfTrack =>
      simp only [process_player_event] at h
      split at h
      · simp only [Option.some.injEq, Prod.mk.injEq] at h
        obtain ⟨h1, _⟩ := h; subst h1
        intro hne
        have hlen : 0 < s.player_tracks_queue.length :=
          List.length_pos.mpr hne
        simp only [nextTrackIndex]
        split <;> omega
      · split at h
        · exact absurd h (by simp)
        · rename_i track ht
          split at h
          · simp only [Option.some.injEq, Prod.mk.injEq] at h
            obtain ⟨h1, _⟩ := h; subst h1
            intro _
            exact (List.getElem?_eq_some_iff.mp ht).1
          · exact absurd h (by simp)
    | Other =>
      simp only [process_player_event, Option.some.injEq, Prod.mk.injEq] at h
      obtain ⟨h1, _⟩ := h; subst h1; exact hInv

theorem worker_invariant_witness :
    WorkerInv initialWorker ∧
    (WorkerInv playerReady ∧
     process_control (fun _ => true) [] playerReady (PlayerControl.StartPlaylist [trackA])
       = some ({ playerReady with player_current_track := 0,
                                  player_tracks_queue := [trackA] },
               [PlayerStateUpdate.EndOfTrack trackA]) ∧
     WorkerInv { playerReady with player_current_track := 0,
                                  player_tracks_queue := [trackA] }) :=
  ⟨worker_invariant.1,
   by decide,
   by decide,
   worker_invariant.2.1 (fun _ => true) [] playerReady (PlayerControl.StartPlaylist [trackA])
     { playerReady with player_current_track := 0, player_tracks_queue := [trackA] }
     [PlayerStateUpdate.EndOfTrack trackA] (by decide) (by decide)⟩

theorem shuffle_permutation_witness :
    [trackA, trackB] ≠ [] ∧
    (List.Perm (shuffleSwaps [(0, 1)] [trackA, trackB]) [trackA, trackB] ∧
     (shuffleSwaps [(0, 1)] [trackA, trackB]).length = [trackA, trackB].length ∧
     ((shuffleSwaps [(0, 1)] [trackA, trackB] : List TrackInfo) : Multiset TrackInfo)
       = ([trackA, trackB] : Multiset TrackInfo)) :=
  ⟨by simp, shuffle_permutation [(0, 1)] [trackA, trackB] (by simp)⟩

/-! ## StartPlaylistAtTrack -/

/-- C3 counterexample: starting `[trackB]` at anchor `trackA` (whose id does
not occur in the list) succeeds, but the resulting queue is `[trackB]`, which
does not contain the anchor — refuting "always results in a queue containing
the anchor".  The cursor does fall back to 0. -/
theorem start_at_track_counterexample :
    process_control (fun _ => true) [] playerReady
        (PlayerControl.StartPlaylistAtTrack [trackB] trackA)
      = some ({ playerReady with player_current_track := 0,
                                 player_tracks_queue := [trackB] },
              [PlayerStateUpdate.EndOfTrack trackB]) ∧
    trackA ∉ ([trackB] : List TrackInfo) ∧
    trackB.id ≠ trackA.id := by
  refine ⟨by decide, by decide, by decide⟩

/-- C3 amended: `StartPlaylistAtTrack` replaces the queue by the shuffled
list; when some element of the (shuffled) list carries the anchor's id the
queue contains such an element and the cursor is the index of the first id
match in the shuffled order, and when no element does the cursor falls back
to 0 (the anchor itself is then absent from the queue). -/
theorem start_at_track_amended (valid : String → Bool) (s : SpotifyWorker)
    (shuffled : List TrackInfo) (anchor : TrackInfo)
    (hp : s.spotify_player = some ())
    (hne : shuffled ≠ [])
    (hv : ∀ t ∈ shuffled, valid t.id = true) :
    ∃ s2 upd, startPlaylistAtTrack valid s shuffled anchor = some (s2, upd) ∧
      s2.player_tracks_queue = shuffled ∧
      ((∃ t ∈ shuffled, t.id = anchor.id) →
        (∃ t ∈ s2.player_tracks_queue, t.id = anchor.id) ∧
        s2.player_current_track
          = (shuffled.findIdx? (fun t => t.id == anchor.id)).getD 0) ∧
      ((∀ t ∈ shuffled, t.id ≠ anchor.id) → s2.player_current_track = 0) := by
  have hidx : (shuffled.findIdx? (fun t => t.id == anchor.id)).getD 0
      < shuffled.length := by
    cases hf : shuffled.findIdx? (fun t => t.id == anchor.id) with
    | none =>
      simpa [hf] using List.length_pos.mpr hne
    | some i =>
      obtain ⟨hlt, _, _⟩ := List.findIdx?_eq_some_iff_getElem.mp hf
      simpa [hf] using hlt
  have hmem : shuffled[(shuffled.findIdx? (fun t => t.id == anchor.id)).getD 0] ∈ shuffled :=
    List.getElem_mem hidx
  refine ⟨{ s with
             player_current_track := (shuffled.findIdx? (fun t => t.id == anchor.id)).getD 0,
             player_tracks_queue := shuffled },
          [PlayerStateUpdate.EndOfTrack
            (shuffled.get ⟨(shuffled.findIdx? (fun t => t.id == anchor.id)).getD 0, hidx⟩)],
          ?_, rfl, ?_, ?_⟩
  · unfold startPlaylistAtTrack start_playlist_at_idx_task
    rw [hp]
    simp [List.getElem?_eq_getElem hidx, hv _ hmem]
  · rintro ⟨t, htmem, htid⟩
    refine ⟨?_, rfl⟩
    cases hf : shuffled.findIdx? (fun t => t.id == anchor.id) with
    | none =>
      exact absurd (by simpa using List.findIdx?_eq_none_iff.mp hf t htmem) (by simp [htid])
    | some i =>
      obtain ⟨hlt, hpi, _⟩ := List.findIdx?_eq_some_iff_getElem.mp hf
      exact ⟨shuffled[i], List.getElem_mem hlt, by simpa using hpi⟩
  · intro habs
    cases hf : shuffled.findIdx? (fun t => t.id == anchor.id) with
    | none => simp [hf]
    | some i =>
      obtain ⟨hlt, hpi, _⟩ := List.findIdx?_eq_some_iff_getElem.mp hf
      exact absurd (by simpa using hpi) (habs (shuffled.get ⟨i, hlt⟩) (List.getElem_mem hlt))

theorem start_at_track_amended_witness :
    playerReady.spotify_player = some () ∧
    ([trackA, trackB] : List TrackInfo) ≠ [] ∧
    (∃ s2 upd,
      startPlaylistAtTrack (fun _ => true) playerReady [trackA, trackB] trackB
        = some (s2, upd) ∧
      s2.player_tracks_queue = [trackA, trackB] ∧
      ((∃ t ∈ [trackA, trackB], t.id = trackB.id) →
        (∃ t ∈ s2.player_tracks_queue, t.id = trackB.id) ∧
        s2.player_current_track
          = (([trackA, trackB] : List TrackInfo).findIdx?
              (fun t => t.id == trackB.id)).getD 0) ∧
      ((∀ t ∈ [trackA, trackB], t.id ≠ trackB.id) → s2.player_current_track = 0)) :=
  ⟨rfl, by decide,
   start_at_track_amended (fun _ => true) playerReady [trackA, trackB] trackB rfl
     (by decide) (fun t _ => rfl)⟩

/-! ## Login failure -/

/-- C5: when any stage of the login attempt fails (missing credentials,
missing OAuth configuration, token failure, or session-connect failure), the
worker sends `Login(false)` and leaves `api_client`, `spotify_player` and
`spotify_session` absent, so every control message is a silent no-op that
emits no state update and leaves the state unchanged. -/
theorem login_failure_no_ops (env : LoginEnv) (s : SpotifyWorker)
    (hfail : env.creds = false ∨ env.oauth = false ∨
             env.tokenOk = false ∨ env.sessionOk = false)
    (hc : s.api_client = none) (hp : s.spotify_player = none)
    (hs : s.spotify_session = none) :
    process_login env s = (s, WorkerResult.Login false) ∧
    s.api_client = none ∧ s.spotify_player = none ∧ s.spotify_session = none ∧
    ∀ (valid : String → Bool) (swaps : List (Nat × Nat)) (c : PlayerControl),
      process_control valid swaps s c = some (s, []) := by
  have hlogin : login_task env s = (s, none) := by
    cases h1 : env.creds <;> cases h2 : env.oauth <;> cases h3 : env.tokenOk <;>
      cases h4 : env.sessionOk <;> simp_all [login_task]
  refine ⟨by simp [process_login, hlogin], hc, hp, hs, ?_⟩
  intro valid swaps c
  cases c <;>
    simp [process_control, nextTrackControl, prevTrackControl,
          startPlaylistAtTrack, start_playlist_task, start_playlist_at_idx_task, hp]

theorem login_failure_no_ops_witness :
    process_login { creds := true, oauth := true, tokenOk := false, sessionOk := true }
        initialWorker
      = (initialWorker, WorkerResult.Login false) ∧
    process_control (fun _ => true) [] initialWorker PlayerControl.Play
      = some (initialWorker, []) ∧
    process_control (fun _ => true) [] initialWorker PlayerControl.NextTrack
      = some (initialWorker, []) :=
  ⟨(login_failure_no_ops { creds := true, oauth := true, tokenOk := false, sessionOk := true }
      initialWorker (Or.inr (Or.inr (Or.inl rfl))) rfl rfl rfl).1,
   (login_failure_no_ops { creds := true, oauth := true, tokenOk := false, sessionOk := true }
      initialWorker (Or.inr (Or.inr (Or.inl rfl))) rfl rfl rfl).2.2.2.2
     (fun _ => true) [] PlayerControl.Play,
   (login_failure_no_ops { creds := true, oauth := true, tokenOk := false, sessionOk := true }
      initialWorker (Or.inr (Or.inr (Or.inl rfl))) rfl rfl rfl).2.2.2.2
     (fun _ => true) [] PlayerControl.NextTrack⟩

/-! ## Cache lookup -/

/-- C7 counterexample: `get_track_info` on a cache hit whose album cover file
is absent issues one artwork HTTP request and adds a cover file — refuting
"pure read: no network fetch, no state mutation". -/
theorem get_track_info_counterexample :
    get_track_info (fun _ => some [1]) [("spotify:track:c", trackC)] [] "spotify:track:c"
      = (some trackC, ["spotify:album:c"], 1) ∧
    (1 : Nat) ≠ 0 ∧
    (["spotify:album:c"] : List String) ≠ ([] : List String) :=
  ⟨by decide, by decide, by decide⟩

/-- C7 amended: `get_track_info` never touches the track table and performs
no network activity on a miss (returning `none`); on a hit it returns the
cached value, but additionally re-caches the album cover, which issues one
HTTP request exactly when the cover file is absent and a size-0/300 artwork
candidate exists. -/
theorem get_track_info_amended (httpGet : String → Option (List Nat))
    (cached : List (String × TrackInfo)) (covers : List String) (id : String) :
    (lookupAssoc cached id = none →
      get_track_info httpGet cached covers id = (none, covers, 0)) ∧
    (∀ t, lookupAssoc cached id = some t →
      (get_track_info httpGet cached covers id).1 = some t ∧
      ((get_track_info httpGet cached covers id).2.2 = 0 ↔
        (t.album_id ∈ covers ∨
         t.album_images.find? (fun p => p.1 == 0 || p.1 == 300) = none))) := by
  constructor
  · intro h
    simp [get_track_info, h]
  · intro t ht
    refine ⟨by simp [get_track_info, ht], ?_⟩
    simp only [get_track_info, ht]
    unfold cache_cover_image
    by_cases hm : t.album_id ∈ covers
    · simp [hm]
    · simp only [hm, if_neg, ite_false]
      cases hf : t.album_images.find? (fun p => p.1 == 0 || p.1 == 300) with
      | none => simp [hf]
      | some p =>
        obtain ⟨sz, url⟩ := p
        cases hg : httpGet url with
        | none => simp [hm, hf, hg]
        | some bytes =>
          by_cases hb : bytes.isEmpty <;> simp [hm, hf, hg, hb]

theorem get_track_info_amended_witness :
    (get_track_info (fun _ => some [1]) [("spotify:track:c", trackC)]
        ["spotify:album:c"] "spotify:track:c").1 = some trackC ∧
    ((get_track_info (fun _ => some [1]) [("spotify:track:c", trackC)]
        ["spotify:album:c"] "spotify:track:c").2.2 = 0 ↔
      (trackC.album_id ∈ ["spotify:album:c"] ∨
       trackC.album_images.find? (fun p => p.1 == 0 || p.1 == 300) = none)) :=
  (get_track_info_amended (fun _ => some [1]) [("spotify:track:c", trackC)]
    ["spotify:album:c"] "spotify:track:c").2 trackC (by decide)

/-! ## Playlist resolution: ordering -/

theorem resolveCachedTracks_spec (httpGet : String → Option (List Nat))
    (cache : List (String × TrackInfo)) :
    ∀ (ids : List String) (covers : List String),
      (resolveCachedTracks httpGet cache covers ids).2.1
        = ids.filterMap (fun id => lookupAssoc cache id) ∧
      (resolveCachedTracks httpGet cache covers ids).2.2.1
        = ids.filter (fun id => (lookupAssoc cache id).isNone) := by
  intro ids
  induction ids with
  | nil => intro covers; exact ⟨rfl, rfl⟩
  | cons id rest ih =>
    intro covers
    cases h : lookupAssoc cache id with
    | some track =>
      obtain ⟨ih1, ih2⟩ :=
        ih (cache_cover_image httpGet covers track.album_id track.album_images).1
      constructor
      · simp [resolveCachedTracks, h, ih1]
      · simp [resolveCachedTracks, h, ih2]
    | none =>
      obtain ⟨ih1, ih2⟩ := ih covers
      constructor
      · simp [resolveCachedTracks, h, ih1]
      · simp [resolveCachedTracks, h, ih2]

theorem processResponse_tracks (httpGet : String → Option (List Nat)) :
    ∀ (resp : List FullTrack) (s : SpotifyWorker),
      (processResponse httpGet s resp).2.1 = resp.filterMap TrackInfo.new := by
  intro resp
  induction resp with
  | nil => intro s; rfl
  | cons ft rest ih =>
    intro s
    cases h : TrackInfo.new ft with
    | none => simp [processResponse, h, ih]
    | some track => simp [processResponse, h, ih]

theorem filterMap_new_map (ft : String → FullTrack) (rec : String → TrackInfo)
    (hrec : ∀ id, TrackInfo.new (ft id) = some (rec id)) (b : List String) :
    (b.map ft).filterMap TrackInfo.new = b.map rec := by
  induction b with
  | nil => rfl
  | cons id rest ih => simp [hrec id, ih]

theorem processBatches_map (ft : String → FullTrack) (rec : String → TrackInfo)
    (httpGet : String → Option (List Nat))
    (hrec : ∀ id, TrackInfo.new (ft id) = some (rec id)) :
    ∀ (bs : List (List String)) (s : SpotifyWorker),
      ∃ s2 n, processBatches (fun ids => some (ids.map ft)) httpGet s bs
        = Except.ok (s2, bs.flatten.map rec, bs, n) := by
  intro bs
  induction bs with
  | nil => intro s; exact ⟨s, 0, rfl⟩
  | cons b rest ih =>
    intro s
    obtain ⟨s2, n, h2⟩ := ih (processResponse httpGet s (b.map ft)).1
    refine ⟨s2, (processResponse httpGet s (b.map ft)).2.2 + n, ?_⟩
    simp [processBatches, h2, processResponse_tracks, filterMap_new_map ft rec hrec]

/-- C1 counterexample: with `trackB` cached and `trackA` uncached, fetching
the playlist `[a, b]` returns `[trackB, trackA]` — the cache-hit block
followed by the fetched block — not the original order `[trackA, trackB]`. -/
theorem fetch_playlist_order_counterexample :
    fetch_playlist_tracks_info_task (fun _ => some [ftA]) (fun _ => none)
        (fun _ => true) c1State ["spotify:track:a", "spotify:track:b"]
      = Except.ok
          ({ c1State with api_cache :=
              [("spotify:track:a", trackA), ("spotify:track:b", trackB)] },
           WorkerResult.PlaylistTrackInfo [trackB, trackA],
           [["spotify:track:a"]], 0) ∧
    [trackB, trackA] ≠ [trackA, trackB] :=
  ⟨by rfl, by decide⟩

theorem get_tracks_info_map (ft : String → FullTrack) (rec : String → TrackInfo)
    (httpGet : String → Option (List Nat))
    (hrec : ∀ id, TrackInfo.new (ft id) = some (rec id))
    (s : SpotifyWorker) (ids : List String) (hc : s.api_client = some ()) :
    ∃ s2 n, get_tracks_info (fun ids2 => some (ids2.map ft)) httpGet s ids
      = Except.ok (s2, ids.map rec, chunks50 ids, n) := by
  obtain ⟨s2, n, h⟩ := processBatches_map ft rec httpGet hrec (chunks50 ids) s
  refine ⟨s2, n, ?_⟩
  unfold get_tracks_info
  simp only [hc]
  rw [h, chunks50_flatten]

/-- C1 amended: when every batched lookup resolves each requested id to one
record (`ft`/`rec`), `fetch_playlist_tracks_info_task` sends the cache hits
in the playlist's original relative order followed by the freshly fetched
tracks in original relative order — a partition into a cache-hit block and a
fetched block, not an interleaving at original positions. -/
theorem fetch_playlist_order_amended (ft : String → FullTrack)
    (rec : String → TrackInfo) (httpGet : String → Option (List Nat))
    (valid : String → Bool) (s : SpotifyWorker) (pl : List String)
    (hc : s.api_client = some ())
    (hrec : ∀ id, TrackInfo.new (ft id) = some (rec id)) :
    ∃ s2 batches n,
      fetch_playlist_tracks_info_task (fun ids => some (ids.map ft)) httpGet valid s pl
        = Except.ok (s2,
            WorkerResult.PlaylistTrackInfo
              (((pl.filter valid).filterMap (fun id => lookupAssoc s.api_cache id)) ++
               (((pl.filter valid).filter
                   (fun id => (lookupAssoc s.api_cache id).isNone)).map rec)),
            batches, n) := by
  obtain ⟨hhits, hfetch⟩ :=
    resolveCachedTracks_spec httpGet s.api_cache (pl.filter valid) s.coverFiles
  obtain ⟨s2, n, hget⟩ :=
    get_tracks_info_map ft rec httpGet hrec
      { s with coverFiles :=
          (resolveCachedTracks httpGet s.api_cache s.coverFiles (pl.filter valid)).1 }
      ((resolveCachedTracks httpGet s.api_cache s.coverFiles (pl.filter valid)).2.2.1)
      hc
  refine ⟨s2,
          chunks50 (resolveCachedTracks httpGet s.api_cache s.coverFiles
            (pl.filter valid)).2.2.1,
          (resolveCachedTracks httpGet s.api_cache s.coverFiles
            (pl.filter valid)).2.2.2 + n, ?_⟩
  unfold fetch_playlist_tracks_info_task
  simp only []
  rw [hget, hhits, hfetch]

theorem fetch_playlist_order_amended_witness :
    c1State.api_client = some () ∧
    (∃ s2 batches n,
      fetch_playlist_tracks_info_task
          (fun ids => some (ids.map (fun id => ({ id := some id,
                                                  name := "N",
                                                  duration_ms := 0,
                                                  artists := [],
                                                  album := { id := some "spotify:album:w",
                                                             name := "W",
                                                             images := [] } } : FullTrack))))
          (fun _ => none) (fun _ => true) c1State
          ["spotify:track:a", "spotify:track:b"]
        = Except.ok (s2,
            WorkerResult.PlaylistTrackInfo
              (((["spotify:track:a", "spotify:track:b"].filter
                  (fun _ => true)).filterMap
                    (fun id => lookupAssoc c1State.api_cache id)) ++
               ((((["spotify:track:a", "spotify:track:b"].filter (fun _ => true)).filter
                  (fun id => (lookupAssoc c1State.api_cache id).isNone))).map
                    (fun id => ({ id := id,
                                  name := "N",
                                  duration_ms := 0,
                                  artists := [],
                                  album_id := "spotify:album:w",
                                  album_name := "W",
                                  album_images := [] } : TrackInfo)))),
            batches, n)) :=
  ⟨rfl,
   fetch_playlist_order_amended
     (fun id => { id := some id,
                  name := "N",
                  duration_ms := 0,
                  artists := [],
                  album := { id := some "spotify:album:w",
                             name := "W",
                             images := [] } })
     (fun id => { id := id,
                  name := "N",
                  duration_ms := 0,
                  artists := [],
                  album_id := "spotify:album:w",
                  album_name := "W",
                  album_images := [] })
     (fun _ => none) (fun _ => true) c1State ["spotify:track:a", "spotify:track:b"]
     rfl (fun _ => rfl)⟩

/-! ## Second-run idempotence -/

theorem cache_cover_image_mono (httpGet : String → Option (List Nat))
    (covers : List String) (id : String) (images : List (Nat × String)) :
    covers ⊆ (cache_cover_image httpGet covers id images).1 := by
  unfold cache_cover_image
  split
  · exact List.Subset.refl _
  · split
    · exact List.Subset.refl _
    · split
      · exact List.Subset.refl _
      · split
        · exact List.Subset.refl _
        · exact List.subset_cons_self _ _

theorem cache_cover_image_settles (httpGet : String → Option (List Nat))
    (covers : List String) (id : String) (images : List (Nat × String))
    (hgood : ∀ url, ∃ b, httpGet url = some b ∧ b ≠ []) :
    images.find? (fun p => p.1 == 0 || p.1 == 300) = none ∨
    id ∈ (cache_cover_image httpGet covers id images).1 := by
  unfold cache_cover_image
  by_cases hm : id ∈ covers
  · right; simp [hm]
  · cases hf : images.find? (fun p => p.1 == 0 || p.1 == 300) with
    | none => left; exact hf.symm ▸ rfl
    | some p =>
      right
      obtain ⟨sz, url⟩ := p
      obtain ⟨b, hb, hbne⟩ := hgood url
      simp [hm, hf, hb, List.isEmpty_eq_false.mpr hbne]

theorem cache_cover_image_noop (httpGet : String → Option (List Nat))
    (covers : List String) (id : String) (images : List (Nat × String))
    (h : images.find? (fun p => p.1 == 0 || p.1 == 300) = none ∨ id ∈ covers) :
    cache_cover_image httpGet covers id images = (covers, 0) := by
  unfold cache_cover_image
  by_cases hm : id ∈ covers
  · simp [hm]
  · rcases h with h | h
    · simp [hm, h]
    · exact absurd h hm

theorem artSettled_mono (c1 c2 : List String) (t : TrackInfo)
    (h : artSettled c1 t) (hsub : c1 ⊆ c2) : artSettled c2 t := by
  rcases h with h | h
  · exact Or.inl h
  · exact Or.inr (hsub h)

theorem resolveCachedTracks_all_hits (httpGet : String → Option (List Nat))
    (cache : List (String × TrackInfo)) :
    ∀ (ids : List String) (covers : List String),
      (∀ id ∈ ids, ∃ t, lookupAssoc cache id = some t ∧ artSettled covers t) →
      resolveCachedTracks httpGet cache covers ids
        = (covers, ids.filterMap (fun id => lookupAssoc cache id), [], 0) := by
  intro ids
  induction ids with
  | nil => intro covers _; rfl
  | cons id rest ih =>
    intro covers h
    obtain ⟨t, hl, hset⟩ := h id (by simp)
    have hart : cache_cover_image httpGet covers t.album_id t.album_images
        = (covers, 0) :=
      cache_cover_image_noop httpGet covers t.album_id t.album_images hset
    have hrest := ih covers (fun i hi => h i (by simp [hi]))
    simp [resolveCachedTracks, hl, hart, hrest]

theorem resolveCachedTracks_post (httpGet : String → Option (List Nat))
    (cache : List (String × TrackInfo))
    (hgood : ∀ url, ∃ b, httpGet url = some b ∧ b ≠ []) :
    ∀ (ids : List String) (covers : List String),
      covers ⊆ (resolveCachedTracks httpGet cache covers ids).1 ∧
      (∀ id ∈ ids, ∀ t, lookupAssoc cache id = some t →
        artSettled (resolveCachedTracks httpGet cache covers ids).1 t) := by
  intro ids
  induction ids with
  | nil =>
    intro covers
    exact ⟨List.Subset.refl _, by intro id hid; simp at hid⟩
  | cons id rest ih =>
    intro covers
    cases hl : lookupAssoc cache id with
    | some t =>
      obtain ⟨ih1, ih2⟩ :=
        ih (cache_cover_image httpGet covers t.album_id t.album_images).1
      have hmono := cache_cover_image_mono httpGet covers t.album_id t.album_images
      constructor
      · simp only [resolveCachedTracks, hl]
        exact List.Subset.trans hmono ih1
      · intro i hi t2 hl2
        rcases List.mem_cons.mp hi with hi1 | hi2
        · subst hi1
          rw [hl] at hl2
          cases hl2
          simp only [resolveCachedTracks, hl]
          rcases cache_cover_image_settles httpGet covers t.album_id t.album_images
            hgood with hs | hs
          · exact Or.inl hs
          · exact Or.inr (ih1 hs)
        · simp only [resolveCachedTracks, hl]
          exact ih2 i hi2 t2 hl2
    | none =>
      obtain ⟨ih1, ih2⟩ := ih covers
      constructor
      · simp only [resolveCachedTracks, hl]
        exact ih1
      · intro i hi t2 hl2
        rcases List.mem_cons.mp hi with hi1 | hi2
        · subst hi1
          rw [hl] at hl2
          cases hl2
        · simp only [resolveCachedTracks, hl]
          exact ih2 i hi2 t2 hl2

theorem processResponse_nice (ft : String → FullTrack) (rec : String → TrackInfo)
    (httpGet : String → Option (List Nat))
    (hrec : ∀ id, TrackInfo.new (ft id) = some (rec id))
    (hid : ∀ id, (rec id).id = id)
    (hgood : ∀ url, ∃ b, httpGet url = some b ∧ b ≠ []) :
    ∀ (b : List String) (s : SpotifyWorker),
      (processResponse httpGet s (b.map ft)).1.api_client = s.api_client ∧
      s.coverFiles ⊆ (processResponse httpGet s (b.map ft)).1.coverFiles ∧
      (∀ key ∈ b, lookupAssoc (processResponse httpGet s (b.map ft)).1.api_cache key
        = some (rec key)) ∧
      (∀ key, key ∉ b →
        lookupAssoc (processResponse httpGet s (b.map ft)).1.api_cache key
          = lookupAssoc s.api_cache key) ∧
      (∀ i ∈ b, artSettled (processResponse httpGet s (b.map ft)).1.coverFiles (rec i)) := by
  intro b
  induction b with
  | nil =>
    intro s
    refine ⟨rfl, List.Subset.refl _, ?_, ?_, ?_⟩
    · intro key hkey; simp at hkey
    · intro key _; rfl
    · intro i hi; simp at hi
  | cons id rest ih =>
    intro s
    have hmono := cache_cover_image_mono httpGet s.coverFiles
      (rec id).album_id (rec id).album_images
    obtain ⟨ih1, ih2, ih3, ih4, ih5⟩ := ih
      { s with coverFiles := (cache_cover_image httpGet s.coverFiles (rec id).album_id
                               (rec id).album_images).1,
               api_cache := ((rec id).id, rec id) :: s.api_cache }
    refine ⟨?_, ?_, ?_, ?_, ?_⟩
    · simpa [processResponse, hrec id] using ih1
    · simp only [processResponse, hrec id]
      exact List.Subset.trans hmono ih2
    · intro key hkey
      simp only [processResponse, hrec id]
      by_cases hk : key ∈ rest
      · exact ih3 key hk
      · have hkid : key = id := by
          rcases List.mem_cons.mp hkey with h1 | h1
          · exact h1
          · exact absurd h1 hk
        subst hkid
        rw [ih4 key hk]
        simp [lookupAssoc, hid]
    · intro key hkey
      have hk1 : key ≠ id := fun he => hkey (by simp [he])
      have hk2 : key ∉ rest := fun he => hkey (by simp [he])
      simp only [processResponse, hrec id]
      rw [ih4 key hk2]
      simp [lookupAssoc, hid, hk1, Ne.symm hk1]
    · intro i hi
      simp only [processResponse, hrec id]
      rcases List.mem_cons.mp hi with h1 | h1
      · subst h1
        rcases cache_cover_image_settles httpGet s.coverFiles (rec i).album_id
          (rec i).album_images hgood with hs | hs
        · exact Or.inl hs
        · exact Or.inr (ih2 hs)
      · exact ih5 i h1

theorem processBatches_nice (ft : String → FullTrack) (rec : String → TrackInfo)
    (httpGet : String → Option (List Nat))
    (hrec : ∀ id, TrackInfo.new (ft id) = some (rec id))
    (hid : ∀ id, (rec id).id = id)
    (hgood : ∀ url, ∃ b, httpGet url = some b ∧ b ≠ []) :
    ∀ (bs : List (List String)) (s : SpotifyWorker),
      ∃ s2 n,
        processBatches (fun ids => some (ids.map ft)) httpGet s bs
          = Except.ok (s2, bs.flatten.map rec, bs, n) ∧
        s2.api_client = s.api_client ∧
        s.coverFiles ⊆ s2.coverFiles ∧
        (∀ key ∈ bs.flatten, lookupAssoc s2.api_cache key = some (rec key)) ∧
        (∀ key, key ∉ bs.flatten →
          lookupAssoc s2.api_cache key = lookupAssoc s.api_cache key) ∧
        (∀ i ∈ bs.flatten, artSettled s2.coverFiles (rec i)) := by
  intro bs
  induction bs with
  | nil =>
    intro s
    refine ⟨s, 0, rfl, rfl, List.Subset.refl _, ?_, fun key _ => rfl, ?_⟩
    · intro key hkey; simp at hkey
    · intro i hi; simp at hi
  | cons b rest ih =>
    intro s
    obtain ⟨pr1, pr2, pr3, pr4, pr5⟩ := processResponse_nice ft rec httpGet hrec hid hgood b s
    obtain ⟨s2, n2, hb2, hcl, hcov, hsome, hunch, hsett⟩ :=
      ih (processResponse httpGet s (b.map ft)).1
    have htr : (processResponse httpGet s (b.map ft)).2.1 = b.map rec := by
      rw [processResponse_tracks, filterMap_new_map ft rec hrec]
    refine ⟨s2, (processResponse httpGet s (b.map ft)).2.2 + n2, ?_, ?_, ?_, ?_, ?_, ?_⟩
    · simp [processBatches, hb2, htr]
    · rw [hcl, pr1]
    · exact List.Subset.trans pr2 hcov
    · intro key hkey
      by_cases hk : key ∈ rest.flatten
      · exact hsome key hk
      · have hkb : key ∈ b := by
          simp only [List.flatten_cons, List.mem_append] at hkey
          rcases hkey with h | h
          · exact h
          · exact absurd h hk
        rw [hunch key hk]
        exact pr3 key hkb
    · intro key hkey
      have hk1 : key ∉ b := fun he => hkey (by simp [he])
      have hk2 : key ∉ rest.flatten := fun he => hkey (by simp [he])
      rw [hunch key hk2]
      exact pr4 key hk1
    · intro i hi
      simp only [List.flatten_cons, List.mem_append] at hi
      rcases hi with h1 | h1
      · exact artSettled_mono _ _ _ (pr5 i h1) hcov
      · exact hsett i h1

theorem fetch_playlist_run1 (ft : String → FullTrack) (rec : String → TrackInfo)
    (httpGet : String → Option (List Nat)) (valid : String → Bool)
    (s : SpotifyWorker) (pl : List String)
    (hc : s.api_client = some ())
    (hrec : ∀ id, TrackInfo.new (ft id) = some (rec id))
    (hid : ∀ id, (rec id).id = id)
    (hgood : ∀ url, ∃ b, httpGet url = some b ∧ b ≠ []) :
    ∃ s1 res batches n,
      fetch_playlist_tracks_info_task (fun ids => some (ids.map ft)) httpGet valid s pl
        = Except.ok (s1, res, batches, n) ∧
      s1.api_client = some () ∧
      (∀ id ∈ pl.filter valid, ∃ t, lookupAssoc s1.api_cache id = some t ∧
        artSettled s1.coverFiles t) := by
  obtain ⟨hhits, hfetch⟩ :=
    resolveCachedTracks_spec httpGet s.api_cache (pl.filter valid) s.coverFiles
  obtain ⟨hrc1, hrc2⟩ :=
    resolveCachedTracks_post httpGet s.api_cache hgood (pl.filter valid) s.coverFiles
  obtain ⟨s2, n2, hpb, hclient, hcov, hsome, hunch, hsett⟩ :=
    processBatches_nice ft rec httpGet hrec hid hgood
      (chunks50 (resolveCachedTracks httpGet s.api_cache s.coverFiles
        (pl.filter valid)).2.2.1)
      { s with coverFiles :=
          (resolveCachedTracks httpGet s.api_cache s.coverFiles (pl.filter valid)).1 }
  have hc1 : ({ s with coverFiles :=
      (resolveCachedTracks httpGet s.api_cache s.coverFiles (pl.filter valid)).1 } :
      SpotifyWorker).api_client = some () := hc
  have hget : get_tracks_info (fun ids => some (ids.map ft)) httpGet
      { s with coverFiles :=
          (resolveCachedTracks httpGet s.api_cache s.coverFiles (pl.filter valid)).1 }
      ((resolveCachedTracks httpGet s.api_cache s.coverFiles (pl.filter valid)).2.2.1)
      = Except.ok (s2,
          (chunks50 (resolveCachedTracks httpGet s.api_cache s.coverFiles
            (pl.filter valid)).2.2.1).flatten.map rec,
          chunks50 (resolveCachedTracks httpGet s.api_cache s.coverFiles
            (pl.filter valid)).2.2.1, n2) := by
    unfold get_tracks_info
    rw [hc1]
    rw [hc] at hpb
    exact hpb
  refine ⟨s2,
          WorkerResult.PlaylistTrackInfo
            ((resolveCachedTracks httpGet s.api_cache s.coverFiles
               (pl.filter valid)).2.1 ++
             (chunks50 (resolveCachedTracks httpGet s.api_cache s.coverFiles
               (pl.filter valid)).2.2.1).flatten.map rec),
          chunks50 (resolveCachedTracks httpGet s.api_cache s.coverFiles
            (pl.filter valid)).2.2.1,
          (resolveCachedTracks httpGet s.api_cache s.coverFiles
            (pl.filter valid)).2.2.2 + n2, ?_, ?_, ?_⟩
  · unfold fetch_playlist_tracks_info_task
    simp only []
    rw [hget]
  · rw [hclient]; exact hc
  · intro id hidmem
    rw [chunks50_flatten] at hsome hunch hsett
    cases hlk : lookupAssoc s.api_cache id with
    | some t =>
      have hnotfetch : id ∉ (resolveCachedTracks httpGet s.api_cache s.coverFiles
          (pl.filter valid)).2.2.1 := by
        rw [hfetch]
        intro hmem
        have := (List.mem_filter.mp hmem).2
        simp [hlk] at this
      refine ⟨t, ?_, ?_⟩
      · rw [hunch id hnotfetch]
        exact hlk
      · exact artSettled_mono _ _ _ (hrc2 id hidmem t hlk) hcov
    | none =>
      have hinfetch : id ∈ (resolveCachedTracks httpGet s.api_cache s.coverFiles
          (pl.filter valid)).2.2.1 := by
        rw [hfetch]
        exact List.mem_filter.mpr ⟨hidmem, by simp [hlk]⟩
      exact ⟨rec id, hsome id hinfetch, hsett id hinfetch⟩

/-- C9 counterexample: a playlist whose only track the API returns without an
album id is never cached, so re-running `fetch_playlist_tracks_info_task` on
the unchanged state issues the same non-empty batched lookup again — the
second run performs a network call, not zero. -/
theorem fetch_twice_counterexample :
    fetch_playlist_tracks_info_task (fun _ => some [ftNoAlbum]) (fun _ => none)
        (fun _ => true) clientReady ["spotify:track:a"]
      = Except.ok (clientReady, WorkerResult.PlaylistTrackInfo [],
                   [["spotify:track:a"]], 0) ∧
    ([["spotify:track:a"]] : List (List String)) ≠ [] :=
  ⟨by rfl, by decide⟩

/-- C9 amended: when the batched lookup resolves every requested id to a
cacheable record whose cached key is the id itself, and every artwork fetch
succeeds with a non-empty body, a first `fetch_playlist_tracks_info_task` run
leaves a state from which a second run on the same playlist issues zero
batched lookups and zero artwork requests (and leaves the state unchanged). -/
theorem fetch_twice_no_network (ft : String → FullTrack) (rec : String → TrackInfo)
    (httpGet : String → Option (List Nat)) (valid : String → Bool)
    (s : SpotifyWorker) (pl : List String)
    (hc : s.api_client = some ())
    (hrec : ∀ id, TrackInfo.new (ft id) = some (rec id))
    (hid : ∀ id, (rec id).id = id)
    (hgood : ∀ url, ∃ b, httpGet url = some b ∧ b ≠ []) :
    ∃ s1 res1 batches1 n1 res2,
      fetch_playlist_tracks_info_task (fun ids => some (ids.map ft)) httpGet valid s pl
        = Except.ok (s1, res1, batches1, n1) ∧
      fetch_playlist_tracks_info_task (fun ids => some (ids.map ft)) httpGet valid s1 pl
        = Except.ok (s1, res2, [], 0) := by
  obtain ⟨s1, res, batches, n, hrun1, hc1, hcache⟩ :=
    fetch_playlist_run1 ft rec httpGet valid s pl hc hrec hid hgood
  have hresolve2 := resolveCachedTracks_all_hits httpGet s1.api_cache
    (pl.filter valid) s1.coverFiles hcache
  refine ⟨s1, res, batches, n,
          WorkerResult.PlaylistTrackInfo
            ((pl.filter valid).filterMap (fun id => lookupAssoc s1.api_cache id)),
          hrun1, ?_⟩
  unfold fetch_playlist_tracks_info_task
  simp only []
  rw [hresolve2]
  simp [get_tracks_info, hc1, processBatches, chunks50, chunks50Go]
  rw [← hc1]

theorem fetch_twice_no_network_witness :
    ∃ s1 res1 batches1 n1 res2,
      fetch_playlist_tracks_info_task
          (fun ids => some (ids.map (fun id => ({ id := some id,
                                                  name := "N",
                                                  duration_ms := 0,
                                                  artists := [],
                                                  album := { id := some "spotify:album:w",
                                                             name := "W",
                                                             images := [] } } : FullTrack))))
          (fun _ => some [1]) (fun _ => true) clientReady ["spotify:track:a"]
        = Except.ok (s1, res1, batches1, n1) ∧
      fetch_playlist_tracks_info_task
          (fun ids => some (ids.map (fun id => ({ id := some id,
                                                  name := "N",
                                                  duration_ms := 0,
                                                  artists := [],
                                                  album := { id := some "spotify:album:w",
                                                             name := "W",
                                                             images := [] } } : FullTrack))))
          (fun _ => some [1]) (fun _ => true) s1 ["spotify:track:a"]
        = Except.ok (s1, res2, [], 0) :=
  fetch_twice_no_network
    (fun id => { id := some id,
                 name := "N",
                 duration_ms := 0,
                 artists := [],
                 album := { id := some "spotify:album:w",
                            name := "W",
                            images := [] } })
    (fun id => { id := id,
                 name := "N",
                 duration_ms := 0,
                 artists := [],
                 album_id := "spotify:album:w",
                 album_name := "W",
                 album_images := [] })
    (fun _ => some [1]) (fun _ => true) clientReady ["spotify:track:a"]
    rfl (fun _ => rfl) (fun _ => rfl)
    (fun _ => ⟨[1], rfl, by decide⟩)

end Espot
